import Mathlib

/-!
Shallow embedding of the sortify file-type detection core
(src/detect.rs, src/prompt.rs, src/classify.rs, src/main.rs).

Byte buffers are `List Nat` (each element a byte value). File paths are
abstracted to the data the core actually consumes: a display name, the raw
extension component of the path, and the outcome of reading the leading
bytes (the filesystem is modelled as part of the per-file record, so a
read either yields a fixed byte list or a fixed error, as it would for an
unchanged file). Interactive prompts are modelled by an explicit list of
pending user answers that a prompt consumes from; an empty list models an
input-read failure. Observable effects (filesystem reads, prompts, moves)
are recorded in an event trace returned alongside each result.
-/

namespace Sortify

/-- Bytes of a string literal, for transcribing the `b"..."` byte-string
patterns of the source. -/
def strBytes (s : String) : List Nat := s.toList.map Char.toNat

/-- `HEADER_CAP` from detect.rs: the byte cap for every header read. -/
def HEADER_CAP : Nat := 64

/-- A signature entry (detect.rs `struct Sig`). -/
structure Sig where
  pattern : List Nat
  offset : Nat
  ext : String
deriving DecidableEq

/-- `FIXED_SIGNATURES` from detect.rs, in source order (order is
load-bearing: first match wins). -/
def FIXED_SIGNATURES : List Sig := [
  ⟨strBytes "\x89PNG\r\n\x1A\n", 0, "png"⟩,
  ⟨strBytes "\xFF\xD8\xFF", 0, "jpg"⟩,
  ⟨strBytes "GIF87a", 0, "gif"⟩,
  ⟨strBytes "GIF89a", 0, "gif"⟩,
  ⟨strBytes "BM", 0, "bmp"⟩,
  ⟨strBytes "%PDF", 0, "pdf"⟩,
  ⟨strBytes "%!PS-Adobe-", 0, "ps"⟩,
  ⟨strBytes "PK\x03\x04", 0, "zip"⟩,
  ⟨strBytes "\x1F\x8B\x08", 0, "gz"⟩,
  ⟨strBytes "\x1A\x45\xDF\xA3", 0, "mkv"⟩,
  ⟨strBytes "WEBP", 8, "webp"⟩,
  ⟨strBytes "ID3", 0, "mp3"⟩,
  ⟨strBytes "OggS", 0, "ogg"⟩,
  ⟨strBytes "fLaC", 0, "flac"⟩,
  ⟨strBytes "\x00\x00\x01\x00", 0, "ico"⟩,
  ⟨strBytes "II*\x00", 0, "tif"⟩,
  ⟨strBytes "MM\x00*", 0, "tif"⟩,
  ⟨strBytes "Rar!\x1A\x07\x00", 0, "rar"⟩,
  ⟨strBytes "7z\xBC\xAF\x27\x1C", 0, "7z"⟩]

/-- `BINARY_SIGNATURES` from detect.rs. -/
def BINARY_SIGNATURES : List Sig := [
  ⟨strBytes "MZ", 0, "exe"⟩,
  ⟨strBytes "\x7FELF", 0, "elf"⟩,
  ⟨strBytes "\xCA\xFE\xBA\xBE", 0, "mach-o"⟩,
  ⟨strBytes "\xCF\xFA\xED\xFE", 0, "mach-o"⟩,
  ⟨strBytes "\xFE\xED\xFA\xCF", 0, "mach-o"⟩,
  ⟨strBytes "\xFE\xED\xFA\xCE", 0, "mach-o"⟩,
  ⟨strBytes "\x00asm", 0, "wasm"⟩]

/-- detect.rs `starts_with_at`: exact byte equality over `pat.length`
bytes beginning at `offset`; false when the buffer is too short. -/
def starts_with_at (buf : List Nat) (offset : Nat) (pat : List Nat) : Bool :=
  decide (offset + pat.length ≤ buf.length) &&
    ((buf.drop offset).take pat.length == pat)

/-- detect.rs `contains`: naive substring search; false for an empty
pattern or a buffer shorter than the pattern, else checks every window
of `pat.length` consecutive bytes (the `windows` scan of the source). -/
def contains (buf pat : List Nat) : Bool :=
  if pat.isEmpty || decide (buf.length < pat.length) then false
  else (List.range (buf.length - pat.length + 1)).any
    (fun i => (buf.drop i).take pat.length == pat)

/-- The ISO-BMFF brand values the source maps to "mp4" in its first match
arm (`b"isom" | b"iso2" | b"mp41" | b"mp42" | b"avc1" | b"MSNV" | b"mp71"`). -/
def mp4_brands : List (List Nat) :=
  [strBytes "isom", strBytes "iso2", strBytes "mp41", strBytes "mp42",
   strBytes "avc1", strBytes "MSNV", strBytes "mp71"]

/-- detect.rs `detect_mp4_like`: needs 12 bytes and "ftyp" at offset 4;
the 4 bytes at offset 8 select the subtype, with "mp4" as the wildcard
default for any unrecognized value. -/
def detect_mp4_like (buf : List Nat) : Option String :=
  if decide (buf.length < 12) || !starts_with_at buf 4 (strBytes "ftyp") then
    none
  else
    let sub := (buf.drop 8).take 4
    some (if sub ∈ mp4_brands then "mp4"
      else if sub = strBytes "M4V " then "m4v"
      else if sub = strBytes "M4A " then "m4a"
      else if sub = strBytes "M4B " then "m4b"
      else if sub = strBytes "qt  " then "mov"
      else "mp4")

/-- detect.rs `detect_riff_typed`: needs 12 bytes starting with "RIFF";
the 4 bytes at offset 8 select the subtype, any other value is no match. -/
def detect_riff_typed (buf : List Nat) : Option String :=
  if decide (buf.length < 12) || !starts_with_at buf 0 (strBytes "RIFF") then
    none
  else
    let sub := (buf.drop 8).take 4
    if sub = strBytes "WEBP" then some "webp"
    else if sub = strBytes "WAVE" then some "wav"
    else if sub = strBytes "AVI " then some "avi"
    else none

/-- detect.rs `detect_zip_like`: requires the ZIP local-file-header magic
at offset 0, then picks a subtype by substring presence in priority order,
defaulting to plain "zip". -/
def detect_zip_like (buf : List Nat) : Option String :=
  if !starts_with_at buf 0 (strBytes "PK\x03\x04") then none
  else if contains buf (strBytes "[Content_Types].xml") ||
          contains buf (strBytes "word/") then some "docx"
  else if contains buf (strBytes "xl/") then some "xlsx"
  else if contains buf (strBytes "ppt/") then some "pptx"
  else if contains buf (strBytes "AndroidManifest.xml") then some "apk"
  else if contains buf (strBytes "META-INF/") then some "jar"
  else some "zip"

/-- Rust `u8::is_ascii_whitespace`: space, tab, LF, FF, CR. -/
def is_ascii_whitespace (b : Nat) : Bool :=
  b == 0x20 || b == 0x09 || b == 0x0A || b == 0x0C || b == 0x0D

/-- The UTF-8 byte-order mark. -/
def BOM : List Nat := strBytes "\xEF\xBB\xBF"

/-- detect.rs `detect_json`: skip a UTF-8 BOM if present; the first
non-whitespace byte must be 123 (opening brace) or 91 (opening square
bracket), and the remaining bytes must include a double quote (34), a
colon (58) or a comma (44). -/
def detect_json (buf : List Nat) : Option String :=
  let rest := buf.drop (if BOM.isPrefixOf buf then 3 else 0)
  match rest.find? (fun b => !is_ascii_whitespace b) with
  | none => none
  | some first_char =>
    if (first_char == 123 || first_char == 91) &&
        rest.any (fun b => b == 34 || b == 58 || b == 44) then
      some "json"
    else none

/-- detect.rs `detect_fixed`: first fixed signature whose pattern occurs
at its required offset. -/
def detect_fixed (buf : List Nat) : Option String :=
  (FIXED_SIGNATURES.find? (fun sig => starts_with_at buf sig.offset sig.pattern)).map
    Sig.ext

/-- detect.rs `looks_binary`. The source computes
`(non_text as f32) / (buf.len() as f32) > 0.30`; for the buffer lengths
this program ever passes (a capped 64-byte header, and in general any
length below about 2^20) the IEEE-754 single-precision quotient is
correctly rounded from exactly representable integers, and the nearest
float to any rational `a/b` with `|a/b - 3/10| ≥ 1/(10*b)` compares to the
nearest float of 0.30 exactly as the rationals do, so the float comparison
coincides with the exact rational comparison `10 * non_text > 3 * len`
used here. -/
def looks_binary (buf : List Nat) : Bool :=
  if buf.isEmpty then false
  else if buf.any (fun b => b == 0) then true
  else
    let non_text :=
      (buf.filter (fun b =>
        !(b == 0x09 || b == 0x0A || b == 0x0D || (0x20 ≤ b && b ≤ 0x7E)))).length
    decide (10 * non_text > 3 * buf.length)

/-- detect.rs `detect_by_signature_buf`: empty buffer never matches;
otherwise the three container detectors run first, then the JSON
heuristic, then the fixed table. -/
def detect_by_signature_buf (buf : List Nat) : Option String :=
  if buf.isEmpty then none
  else match detect_mp4_like buf with
  | some ext => some ext
  | none => match detect_riff_typed buf with
    | some ext => some ext
    | none => match detect_zip_like buf with
      | some ext => some ext
      | none => match detect_json buf with
        | some ext => some ext
        | none => detect_fixed buf

/-- The fixed-table labels that detect.rs `is_binary` counts as
binary-indicating (the `matches!` arm list, in source order). -/
def binary_fixed_exts : List String :=
  ["png", "jpg", "gif", "bmp", "pdf", "ps", "webp", "mkv", "ico", "tif",
   "gz", "rar", "7z", "mp3", "ogg", "flac", "zip"]

/-- The pure part of detect.rs `is_binary`, applied to the bytes returned
by the header read. -/
def is_binary_buf (buf : List Nat) : Bool :=
  if buf.isEmpty then false
  else if BINARY_SIGNATURES.any (fun sig => starts_with_at buf sig.offset sig.pattern) then
    true
  else if (detect_mp4_like buf).isSome || (detect_riff_typed buf).isSome ||
      (detect_zip_like buf).isSome ||
      (match detect_fixed buf with
       | some e => e ∈ binary_fixed_exts
       | none => False) then
    true
  else if (detect_json buf).isSome then false
  else looks_binary buf

/-- classify.rs `Category`. -/
inductive Category
  | Video | Audio | Pictures | Documents | Archives | Executables | Code
  | Uncategorized | Mismatch
deriving DecidableEq

/-- classify.rs `Category::dir_name`. -/
def Category.dir_name : Category → String
  | .Video => "Video"
  | .Audio => "Audio"
  | .Pictures => "Pictures"
  | .Documents => "Documents"
  | .Archives => "Archives"
  | .Executables => "Executables"
  | .Code => "Code"
  | .Uncategorized => "Uncategorized"
  | .Mismatch => "Check manually"

/-- Rust `char::to_ascii_lowercase` on one character. -/
def ascii_lower_char (c : Char) : Char :=
  if 65 ≤ c.toNat && c.toNat ≤ 90 then Char.ofNat (c.toNat + 32) else c

/-- Rust `str::to_ascii_lowercase`: every character lowered in place. -/
def ascii_lowercase (s : String) : String := ⟨s.data.map ascii_lower_char⟩

/-- classify.rs `Category::from_ext`: lowercase, then the static grouping
table; the reserved label "mismatch" routes to the manual-check category
and unknown labels to Uncategorized. -/
def Category.from_ext (ext : String) : Category :=
  let e := ascii_lowercase ext
  if e = "mismatch" then .Mismatch
  else if e ∈ ["mp4", "m4v", "mov", "mkv", "avi", "webm", "flv", "wmv",
    "mpg", "mpeg", "3gp", "ogv", "ts", "vob"] then .Video
  else if e ∈ ["mp3", "wav", "flac", "ogg", "m4a", "aac", "opus",
    "wma", "ape", "alac", "aiff", "dsf", "dsd"] then .Audio
  else if e ∈ ["png", "jpg", "jpeg", "gif", "bmp", "webp", "tiff", "tif",
    "svg", "ico", "heic", "heif", "raw", "cr2", "nef",
    "arw", "dng", "psd", "ai", "eps"] then .Pictures
  else if e ∈ ["pdf", "doc", "docx", "xls", "xlsx", "ppt", "pptx",
    "txt", "md", "rtf", "odt", "ods", "odp",
    "csv", "epub", "mobi", "djvu"] then .Documents
  else if e ∈ ["zip", "7z", "rar", "gz", "tar", "tgz", "bz2",
    "xz", "zst", "lz4", "cab", "iso", "dmg"] then .Archives
  else if e ∈ ["exe", "msi", "elf", "app", "mach-o", "wasm",
    "dll", "so", "dylib", "bin"] then .Executables
  else if e ∈ ["rs", "py", "js", "jsx", "tsx", "c", "cpp", "h", "hpp",
    "java", "go", "rb", "php", "swift", "kt", "cs", "html", "css",
    "scss", "sass", "less", "vue", "svelte", "sh", "bash", "zsh",
    "fish", "ps1", "bat", "cmd", "yaml", "yml", "json", "toml",
    "xml", "ini", "conf", "config", "env", "gitignore",
    "dockerfile", "makefile", "cmake", "sql"] then .Code
  else .Uncategorized

/-- prompt.rs `BinaryAction`. -/
inductive BinaryAction
  | Skip | Process
deriving DecidableEq

/-- prompt.rs `BinaryPolicy`. -/
inductive BinaryPolicy
  | AskEvery | SkipAll | NeverSkip
deriving DecidableEq

/-- Observable effects of the core, recorded as a trace: a header read of
a named file, an interactive prompt (conflict-resolution or
binary-policy), or handing a file to the external move operation. -/
inductive Event
  | readFile (name : String)
  | promptConflict (name : String)
  | promptBinary (name : String)
  | moveFile (name : String) (dir : String)
deriving DecidableEq

/-- The choice mapping of prompt.rs `ask_binary_policy_once`, applied to
the 0-based index the select prompt returns (always < 4: the prompt has
four items). -/
def ask_binary_policy_once (choice : Fin 4) : BinaryAction × BinaryPolicy :=
  if choice.val = 0 then (.Skip, .AskEvery)
  else if choice.val = 1 then (.Skip, .SkipAll)
  else if choice.val = 2 then (.Process, .AskEvery)
  else (.Process, .NeverSkip)

/-- prompt.rs `BinaryPolicy::decide`. The pending user answers are passed
explicitly; only the `AskEvery` state prompts (consuming one answer and
emitting a prompt event), and an exhausted answer list models the
prompt-read failure (`none`). `SkipAll` and `NeverSkip` answer
immediately, leaving the answers untouched. -/
def BinaryPolicy.decide (p : BinaryPolicy) (file : String) (answers : List (Fin 4)) :
    Option ((BinaryAction × BinaryPolicy) × List (Fin 4)) × List Event :=
  match p with
  | .AskEvery =>
    (match answers with
     | [] => none
     | c :: rest => some (ask_binary_policy_once c, rest),
     [Event.promptBinary file])
  | .SkipAll => (some ((.Skip, .SkipAll), answers), [])
  | .NeverSkip => (some ((.Process, .NeverSkip), answers), [])

/-- prompt.rs `ConflictResolution`. -/
inductive ConflictResolution
  | Skip
  | BySignature (s : String)
  | ByExtension (s : String)
  | Mismatched
deriving DecidableEq

/-- The choice mapping of prompt.rs `ask_conflict_resolution`: 0-based
select index to resolution, carrying the strings the source clones in. -/
def ask_conflict_resolution (sig_ext real_ext : String) (choice : Fin 4) :
    ConflictResolution :=
  if choice.val = 0 then .Skip
  else if choice.val = 1 then .BySignature sig_ext
  else if choice.val = 2 then .ByExtension real_ext
  else .Mismatched

/-- A file as the core consumes it: display name, the raw extension
component of the path (before lowercasing), the fixed outcome of reading
its leading `HEADER_CAP` bytes, and whether it is the running executable
itself. -/
structure FileInfo where
  name : String
  rawExt : Option String
  readResult : Except String (List Nat)
  isSelf : Bool

/-- detect.rs `read_prefix` as used by the detectors (always with cap
`HEADER_CAP`): yields the file's fixed read outcome and records one read
event. -/
def read_header (f : FileInfo) : Except String (List Nat) × List Event :=
  (f.readResult, [Event.readFile f.name])

/-- detect.rs `ext_from_path`: the path's extension component, ASCII
lowercased. -/
def ext_from_path (f : FileInfo) : Option String :=
  f.rawExt.map ascii_lowercase

/-- detect.rs `ResolveResult`. -/
structure ResolveResult where
  ext : Option String
  mismatch : Option (String × String)
deriving DecidableEq

/-- detect.rs `detect_by_signature`: one header read, then the pure
detector chain. -/
def detect_by_signature (f : FileInfo) : Except String (Option String) × List Event :=
  match read_header f with
  | (.error e, tr) => (.error e, tr)
  | (.ok buf, tr) => (.ok (detect_by_signature_buf buf), tr)

/-- detect.rs `is_binary`: one header read, then the pure classification. -/
def is_binary (f : FileInfo) : Except String Bool × List Event :=
  match read_header f with
  | (.error e, tr) => (.error e, tr)
  | (.ok buf, tr) => (.ok (is_binary_buf buf), tr)

/-- detect.rs `resolve_extension`. In extension-only mode no detection
work happens. Otherwise signature detection runs (reading the header); on
a signature/extension conflict, dry-run answers immediately with the
detected type and the recorded mismatch pair, and a live run consults the
conflict prompt (consuming one pending answer; an empty answer list is
the propagated prompt failure). -/
def resolve_extension (f : FileInfo) (ext_only dry_run : Bool)
    (answers : List (Fin 4)) :
    Except String (ResolveResult × List (Fin 4)) × List Event :=
  if ext_only then
    (.ok (⟨some ((ext_from_path f).getD "unknown"), none⟩, answers), [])
  else match detect_by_signature f with
  | (.error e, tr) => (.error e, tr)
  | (.ok sig, tr) =>
    match sig with
    | some sig_ext =>
      match ext_from_path f with
      | some actual =>
        if actual ≠ sig_ext then
          if dry_run then
            (.ok (⟨some sig_ext, some (sig_ext, actual)⟩, answers), tr)
          else match answers with
          | [] => (.error "failed to read user input",
              tr ++ [Event.promptConflict f.name])
          | c :: rest =>
            (.ok ((match ask_conflict_resolution sig_ext actual c with
              | .Skip => ⟨none, none⟩
              | .BySignature chosen => ⟨some chosen, none⟩
              | .ByExtension chosen => ⟨some chosen, none⟩
              | .Mismatched => ⟨some "mismatch", some (sig_ext, actual)⟩),
              rest), tr ++ [Event.promptConflict f.name])
        else (.ok (⟨some sig_ext, none⟩, answers), tr)
      | none => (.ok (⟨some sig_ext, none⟩, answers), tr)
    | none =>
      (.ok (⟨some ((ext_from_path f).getD "unknown"), none⟩, answers), tr)

/-- The two cli.rs flags the detection core consumes. -/
structure Args where
  ext_only : Bool
  dry_run : Bool
deriving DecidableEq

/-- main.rs `ProcessingResult` together with the two pieces of mutable
batch context threaded through `process_file`: the binary policy and the
pending user answers for each of the two prompts. -/
structure ProcState where
  moved : List (String × String)
  skipped : List String
  warnings : List String
  policy : BinaryPolicy
  conflictAnswers : List (Fin 4)
  binaryAnswers : List (Fin 4)
deriving DecidableEq

/-- The mismatch warning line main.rs pushes. -/
def mismatch_warning (name sig real : String) : String :=
  "Signature/ext mismatch: " ++ name ++ " (sig: ." ++ sig ++ ", ext: ." ++ real ++ ")"

/-- The dry-run binary warning line main.rs pushes. -/
def binary_warning (name : String) : String :=
  "Binary file detected: " ++ name

/-- ops.rs `move_to_category`, as observed by the core: a dry run does
nothing, a live run hands the file to the external move operation
(modelled as an always-successful move event; the actual filesystem
rename is an external collaborator). -/
def move_to_category (name : String) (cat : Category) (dry_run : Bool) :
    List Event :=
  if dry_run then [] else [Event.moveFile name cat.dir_name]

/-- main.rs `process_file`. The self-binary is skipped outright. Then
extension resolution runs; a reported mismatch pair is appended to the
warnings; an absent resolved extension means the file is skipped. In a
non-extension-only run the binary check then runs (its own header read):
a binary file under dry-run gets a warning and a skip, a binary file in a
live run goes through the policy decision (the returned next state is
written back before the action is inspected). Surviving files are handed
to the move operation and recorded as moved. -/
def process_file (f : FileInfo) (args : Args) (st : ProcState) :
    Except String ProcState × List Event :=
  if f.isSelf then
    (.ok { st with skipped := st.skipped ++ [f.name] }, [])
  else match resolve_extension f args.ext_only args.dry_run st.conflictAnswers with
  | (.error e, tr) => (.error e, tr)
  | (.ok (res, conf), tr) =>
    let st1 : ProcState := { st with conflictAnswers := conf }
    let st2 : ProcState := match res.mismatch with
      | some (sig, real) =>
        { st1 with warnings := st1.warnings ++ [mismatch_warning f.name sig real] }
      | none => st1
    match res.ext with
    | none => (.ok { st2 with skipped := st2.skipped ++ [f.name] }, tr)
    | some ext =>
      if args.ext_only then
        (.ok { st2 with moved := st2.moved ++ [(f.name, (Category.from_ext ext).dir_name)] },
         tr ++ move_to_category f.name (Category.from_ext ext) args.dry_run)
      else match is_binary f with
      | (.error e, btr) => (.error e, tr ++ btr)
      | (.ok bin, btr) =>
        let tr2 := tr ++ btr
        if bin then
          if args.dry_run then
            (.ok { st2 with
                warnings := st2.warnings ++ [binary_warning f.name],
                skipped := st2.skipped ++ [f.name] }, tr2)
          else match BinaryPolicy.decide st2.policy f.name st2.binaryAnswers with
          | (none, ptr) => (.error "failed to read user input", tr2 ++ ptr)
          | (some ((action, newPolicy), bins), ptr) =>
            let st3 : ProcState :=
              { st2 with policy := newPolicy, binaryAnswers := bins }
            match action with
            | .Skip => (.ok { st3 with skipped := st3.skipped ++ [f.name] }, tr2 ++ ptr)
            | .Process =>
              (.ok { st3 with
                  moved := st3.moved ++ [(f.name, (Category.from_ext ext).dir_name)] },
               tr2 ++ ptr ++ move_to_category f.name (Category.from_ext ext) args.dry_run)
        else
          (.ok { st2 with moved := st2.moved ++ [(f.name, (Category.from_ext ext).dir_name)] },
           tr2 ++ move_to_category f.name (Category.from_ext ext) args.dry_run)

/-- The per-file loop of main.rs `main`: files are processed in order and
the first propagated error aborts the whole batch (the `?` on
`process_file`). -/
def run_batch (args : Args) (files : List FileInfo) (st : ProcState) :
    Except String ProcState × List Event :=
  match files with
  | [] => (.ok st, [])
  | f :: rest =>
    match process_file f args st with
    | (.error e, tr) => (.error e, tr)
    | (.ok st1, tr) =>
      match run_batch args rest st1 with
      | (r, tr2) => (r, tr ++ tr2)

/-! ## Derived counting helpers used by the theorems -/

/-- The bytes detect.rs `looks_binary` counts as non-text: everything
outside tab, LF, CR and printable ASCII. -/
def non_text_count (buf : List Nat) : Nat :=
  buf.countP (fun b =>
    !(b == 0x09 || b == 0x0A || b == 0x0D || (0x20 ≤ b && b ≤ 0x7E)))

/-- Whether an event is a filesystem header read. -/
def is_read_event : Event → Bool
  | .readFile _ => true
  | _ => false

/-- Whether an event is an interactive prompt (of either kind). -/
def is_prompt_event : Event → Bool
  | .promptConflict _ => true
  | .promptBinary _ => true
  | _ => false

/-! ## Claims about the detectors -/

/-- Claim C1: any prefix of length at least 12 with "ftyp" at offset 4 is
given a type by the ISO-BMFF detector — never no match: the four bytes at
offset 8 select m4v / m4a / m4b / mov or the mp4-family brands, and every
unrecognized subtype value falls back to mp4. -/
theorem C1_iso_bmff_default (buf : List Nat) (hlen : 12 ≤ buf.length)
    (hmark : (buf.drop 4).take 4 = strBytes "ftyp") :
    (detect_mp4_like buf).isSome = true
    ∧ ((buf.drop 8).take 4 = strBytes "M4V " → detect_mp4_like buf = some "m4v")
    ∧ ((buf.drop 8).take 4 = strBytes "M4A " → detect_mp4_like buf = some "m4a")
    ∧ ((buf.drop 8).take 4 = strBytes "M4B " → detect_mp4_like buf = some "m4b")
    ∧ ((buf.drop 8).take 4 = strBytes "qt  " → detect_mp4_like buf = some "mov")
    ∧ ((buf.drop 8).take 4 ∈ mp4_brands → detect_mp4_like buf = some "mp4")
    ∧ ((buf.drop 8).take 4 ∉ mp4_brands ++
          [strBytes "M4V ", strBytes "M4A ", strBytes "M4B ", strBytes "qt  "] →
        detect_mp4_like buf = some "mp4") := by
  have hsw : starts_with_at buf 4 (strBytes "ftyp") = true := by
    simp only [starts_with_at, Bool.and_eq_true, decide_eq_true_eq, beq_iff_eq]
    constructor
    · have h4 : (strBytes "ftyp").length = 4 := by decide
      omega
    · simpa [strBytes] using hmark
  have h12 : decide (buf.length < 12) = false := by
    simp only [decide_eq_false_iff_not, not_lt]; exact hlen
  have key : detect_mp4_like buf =
      some (if (buf.drop 8).take 4 ∈ mp4_brands then "mp4"
        else if (buf.drop 8).take 4 = strBytes "M4V " then "m4v"
        else if (buf.drop 8).take 4 = strBytes "M4A " then "m4a"
        else if (buf.drop 8).take 4 = strBytes "M4B " then "m4b"
        else if (buf.drop 8).take 4 = strBytes "qt  " then "mov"
        else "mp4") := by
    simp [detect_mp4_like, h12, hsw]
  rw [key]
  refine ⟨rfl, ?_, ?_, ?_, ?_, ?_, ?_⟩
  · intro h; rw [h]; decide
  · intro h; rw [h]; decide
  · intro h; rw [h]; decide
  · intro h; rw [h]; decide
  · intro h; simp [h]
  · intro h
    simp only [List.mem_append, not_or, List.mem_cons, List.not_mem_nil,
      or_false] at h
    obtain ⟨hb, hrest⟩ := h
    push_neg at hrest
    obtain ⟨h1, h2, h3, h4⟩ := hrest
    simp [hb, h1, h2, h3, h4]

def c1buf : List Nat := strBytes "\x00\x00\x00\x18ftypZZZZ"

theorem C1_iso_bmff_default_witness : detect_mp4_like c1buf = some "mp4" :=
  (C1_iso_bmff_default c1buf (by decide) (by decide)).2.2.2.2.2.2 (by decide)

/-- Claim C6: on a prefix of length at least 12 starting with "RIFF", the
RIFF detector answers webp / wav / avi exactly for the subtype values
"WEBP" / "WAVE" / "AVI " at offset 8, and any other subtype value yields
no match rather than a default. -/
theorem C6_riff_no_default (buf : List Nat) (hlen : 12 ≤ buf.length)
    (hmark : buf.take 4 = strBytes "RIFF") :
    (detect_riff_typed buf = some "webp" ↔ (buf.drop 8).take 4 = strBytes "WEBP")
    ∧ (detect_riff_typed buf = some "wav" ↔ (buf.drop 8).take 4 = strBytes "WAVE")
    ∧ (detect_riff_typed buf = some "avi" ↔ (buf.drop 8).take 4 = strBytes "AVI ")
    ∧ ((buf.drop 8).take 4 ∉ [strBytes "WEBP", strBytes "WAVE", strBytes "AVI "] →
        detect_riff_typed buf = none) := by
  have hsw : starts_with_at buf 0 (strBytes "RIFF") = true := by
    simp only [starts_with_at, List.drop_zero, Bool.and_eq_true,
      decide_eq_true_eq, beq_iff_eq]
    constructor
    · have h4 : (strBytes "RIFF").length = 4 := by decide
      omega
    · simpa [strBytes] using hmark
  have h12 : decide (buf.length < 12) = false := by
    simp only [decide_eq_false_iff_not, not_lt]; exact hlen
  have key : detect_riff_typed buf =
      (if (buf.drop 8).take 4 = strBytes "WEBP" then some "webp"
        else if (buf.drop 8).take 4 = strBytes "WAVE" then some "wav"
        else if (buf.drop 8).take 4 = strBytes "AVI " then some "avi"
        else none) := by
    simp [detect_riff_typed, h12, hsw]
  rw [key]
  by_cases h1 : (buf.drop 8).take 4 = strBytes "WEBP" <;>
    by_cases h2 : (buf.drop 8).take 4 = strBytes "WAVE" <;>
      by_cases h3 : (buf.drop 8).take 4 = strBytes "AVI " <;>
        simp_all [strBytes]

def c6buf : List Nat := strBytes "RIFF\x10\x00\x00\x00ABCD"

theorem C6_riff_no_default_witness : detect_riff_typed c6buf = none :=
  (C6_riff_no_default c6buf (by decide) (by decide)).2.2.2 (by decide)

/-- Claim C5: the ZIP-family detector answers only on prefixes starting
with the local-file-header magic, and then always answers, choosing the
subtype by naive substring presence in the fixed priority order
docx → xlsx → pptx → apk → jar → zip. -/
theorem C5_zip_priority (buf : List Nat) :
    (starts_with_at buf 0 (strBytes "PK\x03\x04") = false →
      detect_zip_like buf = none)
    ∧ (starts_with_at buf 0 (strBytes "PK\x03\x04") = true →
      (detect_zip_like buf).isSome = true
      ∧ (contains buf (strBytes "[Content_Types].xml") = true ∨
          contains buf (strBytes "word/") = true →
          detect_zip_like buf = some "docx")
      ∧ (contains buf (strBytes "[Content_Types].xml") = false →
          contains buf (strBytes "word/") = false →
          contains buf (strBytes "xl/") = true →
          detect_zip_like buf = some "xlsx")
      ∧ (contains buf (strBytes "[Content_Types].xml") = false →
          contains buf (strBytes "word/") = false →
          contains buf (strBytes "xl/") = false →
          contains buf (strBytes "ppt/") = true →
          detect_zip_like buf = some "pptx")
      ∧ (contains buf (strBytes "[Content_Types].xml") = false →
          contains buf (strBytes "word/") = false →
          contains buf (strBytes "xl/") = false →
          contains buf (strBytes "ppt/") = false →
          contains buf (strBytes "AndroidManifest.xml") = true →
          detect_zip_like buf = some "apk")
      ∧ (contains buf (strBytes "[Content_Types].xml") = false →
          contains buf (strBytes "word/") = false →
          contains buf (strBytes "xl/") = false →
          contains buf (strBytes "ppt/") = false →
          contains buf (strBytes "AndroidManifest.xml") = false →
          contains buf (strBytes "META-INF/") = true →
          detect_zip_like buf = some "jar")
      ∧ (contains buf (strBytes "[Content_Types].xml") = false →
          contains buf (strBytes "word/") = false →
          contains buf (strBytes "xl/") = false →
          contains buf (strBytes "ppt/") = false →
          contains buf (strBytes "AndroidManifest.xml") = false →
          contains buf (strBytes "META-INF/") = false →
          detect_zip_like buf = some "zip")) := by
  constructor
  · intro h; simp [detect_zip_like, h]
  · intro h
    refine ⟨?_, ?_, ?_, ?_, ?_, ?_, ?_⟩
    · simp only [detect_zip_like, h, Bool.not_true, Bool.false_eq_true,
        if_false]
      repeat' first | rfl | split
    · rintro (hc | hc) <;> simp [detect_zip_like, h, hc]
    · intro h1 h2 h3; simp [detect_zip_like, h, h1, h2, h3]
    · intro h1 h2 h3 h4; simp [detect_zip_like, h, h1, h2, h3, h4]
    · intro h1 h2 h3 h4 h5; simp [detect_zip_like, h, h1, h2, h3, h4, h5]
    · intro h1 h2 h3 h4 h5 h6
      simp [detect_zip_like, h, h1, h2, h3, h4, h5, h6]
    · intro h1 h2 h3 h4 h5 h6
      simp [detect_zip_like, h, h1, h2, h3, h4, h5, h6]

def c5buf : List Nat := strBytes "PK\x03\x04\x14\x00\x00\x00word/doc"

theorem C5_zip_priority_witness : detect_zip_like c5buf = some "docx" :=
  ((C5_zip_priority c5buf).2 (by decide)).2.1 (Or.inr (by decide))

/-- Claim C7: the JSON detector answers json exactly when, after skipping
a UTF-8 byte-order mark, the first non-whitespace byte exists and is an
opening brace (123) or bracket (91) and the remaining bytes include a
double quote (34), colon (58) or comma (44); all-whitespace and
punctuation-free prefixes are rejected, and in the detection chain the
JSON check runs after the three container detectors but before the fixed
signature table. -/
theorem C7_json_detector (buf : List Nat) :
    (detect_json buf = some "json" ↔
      (∃ c, (buf.drop (if BOM.isPrefixOf buf then 3 else 0)).find?
            (fun b => !is_ascii_whitespace b) = some c ∧ (c = 123 ∨ c = 91))
      ∧ ∃ b ∈ buf.drop (if BOM.isPrefixOf buf then 3 else 0),
          b = 34 ∨ b = 58 ∨ b = 44)
    ∧ ((∀ b ∈ buf, is_ascii_whitespace b = true) → detect_json buf = none)
    ∧ ((∀ b ∈ buf, b ≠ 34 ∧ b ≠ 58 ∧ b ≠ 44) → detect_json buf = none)
    ∧ (detect_mp4_like buf = none → detect_riff_typed buf = none →
        detect_zip_like buf = none → buf ≠ [] →
        detect_by_signature_buf buf =
          (detect_json buf).elim (detect_fixed buf) some) := by
  have detect_json_eq : detect_json buf =
      match (buf.drop (if BOM.isPrefixOf buf then 3 else 0)).find?
          (fun b => !is_ascii_whitespace b) with
      | none => none
      | some c =>
        if (c == 123 || c == 91) &&
            (buf.drop (if BOM.isPrefixOf buf then 3 else 0)).any
              (fun b => b == 34 || b == 58 || b == 44) then
          some "json"
        else none := rfl
  refine ⟨?_, ?_, ?_, ?_⟩
  · cases hfind : (buf.drop (if BOM.isPrefixOf buf then 3 else 0)).find?
        (fun b => !is_ascii_whitespace b) with
    | none =>
      have lhs : detect_json buf = none := by rw [detect_json_eq, hfind]
      rw [lhs]
      simp [hfind]
    | some c =>
      by_cases hcond : ((c == 123 || c == 91) &&
          (buf.drop (if BOM.isPrefixOf buf then 3 else 0)).any
            (fun b => b == 34 || b == 58 || b == 44)) = true
      · have lhs : detect_json buf = some "json" := by
          rw [detect_json_eq, hfind]; exact if_pos hcond
        rw [lhs]
        have hc := hcond
        simp only [Bool.and_eq_true, Bool.or_eq_true, beq_iff_eq,
          List.any_eq_true] at hc
        constructor
        · intro _
          obtain ⟨b, hb, hbv⟩ := hc.2
          refine ⟨⟨c, rfl, hc.1⟩, b, hb, ?_⟩
          tauto
        · intro _; rfl
      · have lhs : detect_json buf = none := by
          rw [detect_json_eq, hfind]; exact if_neg hcond
        rw [lhs]
        constructor
        · intro h; exact absurd h (by simp)
        · rintro ⟨⟨c', hc', hcv⟩, b, hb, hbv⟩
          exfalso
          apply hcond
          injection hc' with he
          subst he
          simp only [Bool.and_eq_true, Bool.or_eq_true, beq_iff_eq,
            List.any_eq_true]
          refine ⟨hcv, b, hb, ?_⟩
          tauto
  · intro hws
    have hfind : (buf.drop (if BOM.isPrefixOf buf then 3 else 0)).find?
        (fun b => !is_ascii_whitespace b) = none := by
      rw [List.find?_eq_none]
      intro b hb
      have := hws b (List.mem_of_mem_drop hb)
      simp [this]
    rw [detect_json_eq, hfind]
  · intro hnop
    rw [detect_json_eq]
    cases hfind : (buf.drop (if BOM.isPrefixOf buf then 3 else 0)).find?
        (fun b => !is_ascii_whitespace b) with
    | none => rfl
    | some c =>
      have hany : (buf.drop (if BOM.isPrefixOf buf then 3 else 0)).any
          (fun b => b == 34 || b == 58 || b == 44) = false := by
        rw [List.any_eq_false]
        intro b hb
        have := hnop b (List.mem_of_mem_drop hb)
        simp only [Bool.or_eq_true, beq_iff_eq, not_or]
        exact ⟨⟨this.1, this.2.1⟩, this.2.2⟩
      rw [hany]
      simp
  · intro h1 h2 h3 hne
    have hemp : buf.isEmpty = false := by
      cases buf with
      | nil => exact absurd rfl hne
      | cons a l => rfl
    simp only [detect_by_signature_buf, hemp, h1, h2, h3]
    cases detect_json buf <;> simp

def c7buf : List Nat := [32, 123, 34, 97, 34, 58, 49, 125]

theorem C7_json_detector_witness : detect_json c7buf = some "json" :=
  (C7_json_detector c7buf).1.2 ⟨⟨123, by decide, Or.inl rfl⟩, 34, by decide, Or.inl rfl⟩

/-- Claim C4: the generic binary/text heuristic marks a prefix binary
exactly when it is non-empty and either holds a zero byte or its
non-text fraction strictly exceeds 30 percent; a zero byte alone
suffices, the empty prefix is never binary, and a prefix sitting exactly
on the 30 percent boundary with no zero byte is not binary. -/
theorem C4_binary_heuristic (buf : List Nat) :
    (looks_binary buf = true ↔
      buf ≠ [] ∧ (0 ∈ buf ∨ 10 * non_text_count buf > 3 * buf.length))
    ∧ looks_binary [] = false
    ∧ (0 ∈ buf → looks_binary buf = true)
    ∧ (buf ≠ [] → 0 ∉ buf → 10 * non_text_count buf = 3 * buf.length →
        looks_binary buf = false) := by
  have hzero : (buf.any fun b => b == 0) = true ↔ 0 ∈ buf := by
    simp only [List.any_eq_true, beq_iff_eq]
    constructor
    · rintro ⟨b, hb, rfl⟩; exact hb
    · intro h; exact ⟨0, h, rfl⟩
  have hcount : non_text_count buf =
      (buf.filter (fun b =>
        !(b == 0x09 || b == 0x0A || b == 0x0D || (0x20 ≤ b && b ≤ 0x7E)))).length := by
    rw [non_text_count, List.countP_eq_length_filter]
  have hmain : looks_binary buf = true ↔
      buf ≠ [] ∧ (0 ∈ buf ∨ 10 * non_text_count buf > 3 * buf.length) := by
    unfold looks_binary
    by_cases hne : buf = []
    · subst hne; simp
    · have hemp : buf.isEmpty = false := by
        cases buf with
        | nil => exact absurd rfl hne
        | cons a l => rfl
      rw [hcount]
      by_cases hz : 0 ∈ buf
      · simp [hemp, hzero.mpr hz, hne, hz]
      · have : (buf.any fun b => b == 0) = false := by
          cases hh : buf.any fun b => b == 0
          · rfl
          · exact absurd (hzero.mp hh) hz
        simp [hemp, this, hne, hz]
  refine ⟨hmain, by decide, ?_, ?_⟩
  · intro hz
    have hne : buf ≠ [] := by
      intro h; subst h; exact absurd hz (List.not_mem_nil 0)
    exact hmain.mpr ⟨hne, Or.inl hz⟩
  · intro hne hz heq
    cases hlb : looks_binary buf
    · rfl
    · rcases (hmain.mp hlb).2 with h | h
      · exact absurd h hz
      · omega

def c4buf : List Nat := [1, 1, 1, 97, 97, 97, 97, 97, 97, 97]

theorem C4_binary_heuristic_witness : looks_binary c4buf = false :=
  (C4_binary_heuristic c4buf).2.2.2 (by decide) (by decide) (by decide)

/-- Claim C3: the binary-policy transition function: SkipAllBinaries
always skips and stays, NeverSkipBinaries always processes and stays,
neither prompting nor consuming an answer; in AskEachTime the four prompt
choices map to skip-once, skip-all, process-once and process-always; and
once skip-all has been chosen, a later binary file is skipped with no
prompt and the state remains SkipAllBinaries. -/
theorem C3_policy_machine (file file2 : String) (answers rest : List (Fin 4)) :
    BinaryPolicy.decide .SkipAll file answers =
      (some ((.Skip, .SkipAll), answers), [])
    ∧ BinaryPolicy.decide .NeverSkip file answers =
      (some ((.Process, .NeverSkip), answers), [])
    ∧ BinaryPolicy.decide .AskEvery file ((0 : Fin 4) :: rest) =
      (some ((.Skip, .AskEvery), rest), [Event.promptBinary file])
    ∧ BinaryPolicy.decide .AskEvery file ((1 : Fin 4) :: rest) =
      (some ((.Skip, .SkipAll), rest), [Event.promptBinary file])
    ∧ BinaryPolicy.decide .AskEvery file ((2 : Fin 4) :: rest) =
      (some ((.Process, .AskEvery), rest), [Event.promptBinary file])
    ∧ BinaryPolicy.decide .AskEvery file ((3 : Fin 4) :: rest) =
      (some ((.Process, .NeverSkip), rest), [Event.promptBinary file])
    ∧ (∀ p : BinaryPolicy,
        (BinaryPolicy.decide .AskEvery file ((1 : Fin 4) :: rest)).1 =
          some ((.Skip, p), rest) →
        BinaryPolicy.decide p file2 rest =
          (some ((.Skip, .SkipAll), rest), [])) := by
  refine ⟨rfl, rfl, rfl, rfl, rfl, rfl, ?_⟩
  intro p hp
  have : p = BinaryPolicy.SkipAll := by
    simp only [BinaryPolicy.decide, ask_binary_policy_once] at hp
    norm_num at hp
    exact hp.symm
  subst this
  rfl

theorem C3_policy_machine_witness :
    BinaryPolicy.decide .SkipAll "b.bin" [] =
      (some ((.Skip, .SkipAll), []), []) :=
  (C3_policy_machine "b.bin" "c.bin" [] []).1

/-! ## Claims about per-file resolution and the batch driver -/

/-- A failing header read propagates out of `process_file` unchanged (for
a non-extension-only run on a file that is not the tool's own binary). -/
theorem process_file_read_error (f : FileInfo) (args : Args) (st : ProcState)
    (e : String) (he : f.readResult = .error e) (hext : args.ext_only = false)
    (hself : f.isSelf = false) :
    process_file f args st = (.error e, [Event.readFile f.name]) := by
  simp [process_file, resolve_extension, detect_by_signature, read_header,
    he, hext, hself]

/-- One unfolding step of the batch loop, failing case. -/
theorem run_batch_cons_error {args : Args} {f0 : FileInfo} {st : ProcState}
    {e : String} {tr : List Event} (rest : List FileInfo)
    (hpf : process_file f0 args st = (.error e, tr)) :
    run_batch args (f0 :: rest) st = (.error e, tr) := by
  simp [run_batch, hpf]

/-- One unfolding step of the batch loop, succeeding case. -/
theorem run_batch_cons_ok {args : Args} {f0 : FileInfo} {st : ProcState}
    {st1 : ProcState} {tr : List Event} (rest : List FileInfo)
    (hpf : process_file f0 args st = (.ok st1, tr)) :
    run_batch args (f0 :: rest) st =
      ((run_batch args rest st1).1, tr ++ (run_batch args rest st1).2) := by
  simp [run_batch, hpf]

/-- Claim C8: a filesystem failure while reading a file's header aborts
the whole batch: the run ends in an error, and the files after the
failing one contribute nothing (the run is identical to the run truncated
right after the failing file). -/
theorem C8_read_failure_aborts (args : Args) (pre post : List FileInfo)
    (f : FileInfo) (st : ProcState) (e : String)
    (he : f.readResult = .error e) (hext : args.ext_only = false)
    (hself : f.isSelf = false) :
    (∃ msg, (run_batch args (pre ++ f :: post) st).1 = Except.error msg)
    ∧ run_batch args (pre ++ f :: post) st = run_batch args (pre ++ [f]) st := by
  induction pre generalizing st with
  | nil =>
    have hpf := process_file_read_error f args st e he hext hself
    rw [List.nil_append, List.nil_append, run_batch_cons_error post hpf,
      run_batch_cons_error [] hpf]
    exact ⟨⟨e, rfl⟩, rfl⟩
  | cons f0 pre ih =>
    rw [List.cons_append, List.cons_append]
    cases hpf : process_file f0 args st with
    | mk r tr =>
      cases r with
      | error e0 =>
        rw [run_batch_cons_error (pre ++ f :: post) hpf,
          run_batch_cons_error (pre ++ [f]) hpf]
        exact ⟨⟨e0, rfl⟩, rfl⟩
      | ok st1 =>
        obtain ⟨⟨msg, hmsg⟩, heq⟩ := ih st1
        rw [run_batch_cons_ok (pre ++ f :: post) hpf,
          run_batch_cons_ok (pre ++ [f]) hpf, heq]
        exact ⟨⟨msg, by rw [← heq]; exact hmsg⟩, rfl⟩

def c8bad : FileInfo := ⟨"bad.bin", some "bin", .error "cannot read header", false⟩

def c8good : FileInfo := ⟨"ok.txt", some "txt", .ok (strBytes "hello"), false⟩

def st0 : ProcState := ⟨[], [], [], .AskEvery, [], []⟩

theorem C8_read_failure_aborts_witness :
    ∃ msg, (run_batch ⟨false, false⟩ [c8bad, c8good] st0).1 = Except.error msg :=
  (C8_read_failure_aborts ⟨false, false⟩ [] [c8good] c8bad st0
    "cannot read header" rfl rfl rfl).1

/-! ### Case equations for `resolve_extension` -/

theorem detect_by_signature_error (f : FileInfo) (e : String)
    (he : f.readResult = .error e) :
    detect_by_signature f = (.error e, [Event.readFile f.name]) := by
  simp [detect_by_signature, read_header, he]

theorem detect_by_signature_ok (f : FileInfo) (buf : List Nat)
    (hb : f.readResult = .ok buf) :
    detect_by_signature f =
      (.ok (detect_by_signature_buf buf), [Event.readFile f.name]) := by
  simp [detect_by_signature, read_header, hb]

/-- The result each conflict-prompt choice maps to in `resolve_extension`. -/
def conflict_res (sig actual : String) (c : Fin 4) : ResolveResult :=
  match ask_conflict_resolution sig actual c with
  | .Skip => ⟨none, none⟩
  | .BySignature chosen => ⟨some chosen, none⟩
  | .ByExtension chosen => ⟨some chosen, none⟩
  | .Mismatched => ⟨some "mismatch", some (sig, actual)⟩

theorem resolve_ext_only (f : FileInfo) (dry : Bool) (ans : List (Fin 4)) :
    resolve_extension f true dry ans =
      (.ok (⟨some ((ext_from_path f).getD "unknown"), none⟩, ans), []) := by
  simp [resolve_extension]

theorem resolve_read_error (f : FileInfo) (dry : Bool) (ans : List (Fin 4))
    (e : String) (he : f.readResult = .error e) :
    resolve_extension f false dry ans = (.error e, [Event.readFile f.name]) := by
  simp [resolve_extension, detect_by_signature_error f e he]

theorem resolve_no_sig (f : FileInfo) (dry : Bool) (ans : List (Fin 4))
    (buf : List Nat) (hb : f.readResult = .ok buf)
    (hd : detect_by_signature_buf buf = none) :
    resolve_extension f false dry ans =
      (.ok (⟨some ((ext_from_path f).getD "unknown"), none⟩, ans),
        [Event.readFile f.name]) := by
  simp [resolve_extension, detect_by_signature_ok f buf hb, hd]

theorem resolve_sig_no_ext (f : FileInfo) (dry : Bool) (ans : List (Fin 4))
    (buf : List Nat) (sig : String) (hb : f.readResult = .ok buf)
    (hd : detect_by_signature_buf buf = some sig)
    (hx : ext_from_path f = none) :
    resolve_extension f false dry ans =
      (.ok (⟨some sig, none⟩, ans), [Event.readFile f.name]) := by
  simp [resolve_extension, detect_by_signature_ok f buf hb, hd, hx]

theorem resolve_sig_agrees (f : FileInfo) (dry : Bool) (ans : List (Fin 4))
    (buf : List Nat) (sig actual : String) (hb : f.readResult = .ok buf)
    (hd : detect_by_signature_buf buf = some sig)
    (hx : ext_from_path f = some actual) (heq : actual = sig) :
    resolve_extension f false dry ans =
      (.ok (⟨some sig, none⟩, ans), [Event.readFile f.name]) := by
  simp [resolve_extension, detect_by_signature_ok f buf hb, hd, hx, heq]

theorem resolve_conflict_dry (f : FileInfo) (ans : List (Fin 4))
    (buf : List Nat) (sig actual : String) (hb : f.readResult = .ok buf)
    (hd : detect_by_signature_buf buf = some sig)
    (hx : ext_from_path f = some actual) (hne : actual ≠ sig) :
    resolve_extension f false true ans =
      (.ok (⟨some sig, some (sig, actual)⟩, ans), [Event.readFile f.name]) := by
  simp [resolve_extension, detect_by_signature_ok f buf hb, hd, hx, hne]

theorem resolve_conflict_no_answer (f : FileInfo)
    (buf : List Nat) (sig actual : String) (hb : f.readResult = .ok buf)
    (hd : detect_by_signature_buf buf = some sig)
    (hx : ext_from_path f = some actual) (hne : actual ≠ sig) :
    resolve_extension f false false [] =
      (.error "failed to read user input",
        [Event.readFile f.name, Event.promptConflict f.name]) := by
  simp [resolve_extension, detect_by_signature_ok f buf hb, hd, hx, hne]

theorem resolve_conflict_live (f : FileInfo) (c : Fin 4) (rest : List (Fin 4))
    (buf : List Nat) (sig actual : String) (hb : f.readResult = .ok buf)
    (hd : detect_by_signature_buf buf = some sig)
    (hx : ext_from_path f = some actual) (hne : actual ≠ sig) :
    resolve_extension f false false (c :: rest) =
      (.ok (conflict_res sig actual c, rest),
        [Event.readFile f.name, Event.promptConflict f.name]) := by
  simp [resolve_extension, detect_by_signature_ok f buf hb, hd, hx, hne,
    conflict_res]

/-- In a non-extension-only run, `resolve_extension` performs exactly one
header read, whatever happens. -/
theorem resolve_trace_reads (f : FileInfo) (dry : Bool) (ans : List (Fin 4)) :
    (resolve_extension f false dry ans).2.countP is_read_event = 1 := by
  cases hb : f.readResult with
  | error e =>
    rw [resolve_read_error f dry ans e hb]
    simp [List.countP_cons, is_read_event]
  | ok buf =>
    cases hd : detect_by_signature_buf buf with
    | none =>
      rw [resolve_no_sig f dry ans buf hb hd]
      simp [List.countP_cons, is_read_event]
    | some sig =>
      cases hx : ext_from_path f with
      | none =>
        rw [resolve_sig_no_ext f dry ans buf sig hb hd hx]
        simp [List.countP_cons, is_read_event]
      | some actual =>
        by_cases hne : actual = sig
        · rw [resolve_sig_agrees f dry ans buf sig actual hb hd hx hne]
          simp [List.countP_cons, is_read_event]
        · cases dry with
          | true =>
            rw [resolve_conflict_dry f ans buf sig actual hb hd hx hne]
            simp [List.countP_cons, is_read_event]
          | false =>
            cases ans with
            | nil =>
              rw [resolve_conflict_no_answer f buf sig actual hb hd hx hne]
              simp [List.countP_cons, is_read_event]
            | cons c rest =>
              rw [resolve_conflict_live f c rest buf sig actual hb hd hx hne]
              simp [List.countP_cons, is_read_event]

/-- The binary-policy decision never reads the filesystem. -/
theorem decide_reads (p : BinaryPolicy) (n : String) (a : List (Fin 4)) :
    (BinaryPolicy.decide p n a).2.countP is_read_event = 0 := by
  cases p <;> simp [BinaryPolicy.decide, is_read_event]

/-- The move hand-off never reads the file header. -/
theorem move_reads (n : String) (c : Category) (d : Bool) :
    (move_to_category n c d).countP is_read_event = 0 := by
  cases d <;> simp [move_to_category, is_read_event]

def c9file : FileInfo := ⟨"notes.txt", some "txt", .ok (strBytes "hello"), false⟩

/-- Claim C9 counterexample: processing a plain text file in a
non-extension-only run reads its header twice — once inside extension
resolution and once inside the binary check — not once: the full event
trace of the run on a concrete file is two read events. -/
theorem C9_single_read_counterexample :
    (process_file c9file ⟨false, true⟩ st0).2 =
      [Event.readFile "notes.txt", Event.readFile "notes.txt"]
    ∧ (process_file c9file ⟨false, true⟩ st0).2.countP is_read_event ≠ 1 := by
  have h1 : (process_file c9file ⟨false, true⟩ st0).2 =
      [Event.readFile "notes.txt", Event.readFile "notes.txt"] := rfl
  refine ⟨h1, ?_⟩
  rw [h1]
  decide

/-- Claim C9 amended: in a non-extension-only run the header is read once
or twice per file, never more and never shared: extension resolution
performs exactly one read, the binary check performs its own single read,
and whenever resolution yields a usable extension (so the binary check is
reached) the file's trace holds exactly two reads. Both reads use the
same cap, so on an unchanged file they return identical bytes, but they
are separate filesystem reads, not one snapshot. -/
theorem C9_two_reads_amended (f : FileInfo) (args : Args) (st : ProcState)
    (hext : args.ext_only = false) (hself : f.isSelf = false) :
    ((process_file f args st).2.countP is_read_event = 1
      ∨ (process_file f args st).2.countP is_read_event = 2)
    ∧ (resolve_extension f args.ext_only args.dry_run st.conflictAnswers).2.countP
        is_read_event = 1
    ∧ (is_binary f).2 = [Event.readFile f.name]
    ∧ (∀ res rest,
        (resolve_extension f args.ext_only args.dry_run st.conflictAnswers).1 =
          .ok (res, rest) → res.ext ≠ none →
        (process_file f args st).2.countP is_read_event = 2) := by
  obtain ⟨eo, dr⟩ := args
  change eo = false at hext
  subst hext
  have hresolve1 : (resolve_extension f false dr st.conflictAnswers).2.countP
      is_read_event = 1 := resolve_trace_reads f dr st.conflictAnswers
  have hisbin : (is_binary f).2 = [Event.readFile f.name] := by
    cases hbr : f.readResult <;> simp [is_binary, read_header, hbr]
  have main : ((process_file f ⟨false, dr⟩ st).2.countP is_read_event = 1
      ∧ ∀ res rest,
        (resolve_extension f false dr st.conflictAnswers).1 =
          .ok (res, rest) → res.ext = none)
      ∨ (process_file f ⟨false, dr⟩ st).2.countP is_read_event = 2 := by
    rcases hres : resolve_extension f false dr st.conflictAnswers with ⟨r, tr⟩
    have htr : tr.countP is_read_event = 1 := by
      rw [hres] at hresolve1; exact hresolve1
    cases r with
    | error e =>
      left
      constructor
      · have h2 : (process_file f ⟨false, dr⟩ st).2 = tr := by
          simp [process_file, hself, hres]
        rw [h2]; exact htr
      · intro res' rest' h
        exact absurd h (by simp)
    | ok p =>
      obtain ⟨res, conf⟩ := p
      cases hre : res.ext with
      | none =>
        left
        constructor
        · have h2 : (process_file f ⟨false, dr⟩ st).2 = tr := by
            rcases hrm : res.mismatch with _ | ⟨sig, real⟩ <;>
              simp [process_file, hself, hres, hre, hrm]
          rw [h2]; exact htr
        · intro res' rest' h
          simp only [Except.ok.injEq, Prod.mk.injEq] at h
          rw [← h.1]
          exact hre
      | some ext =>
        right
        rcases hdec : BinaryPolicy.decide st.policy f.name st.binaryAnswers
          with ⟨o, ptr⟩
        have hptr : ptr.countP is_read_event = 0 := by
          have h0 := decide_reads st.policy f.name st.binaryAnswers
          rw [hdec] at h0; exact h0
        cases hbr : f.readResult with
        | error e2 =>
          rcases hrm : res.mismatch with _ | ⟨sig, real⟩ <;>
            simp [process_file, hself, hres, hre, hrm, is_binary,
              read_header, hbr, List.countP_append, List.countP_cons,
              is_read_event, htr]
        | ok buf =>
          cases hbin : is_binary_buf buf with
          | false =>
            rcases hrm : res.mismatch with _ | ⟨sig, real⟩ <;>
              simp [process_file, hself, hres, hre, hrm, is_binary,
                read_header, hbr, hbin, move_reads, List.countP_append,
                List.countP_cons, is_read_event, htr]
          | true =>
            cases dr with
            | true =>
              rcases hrm : res.mismatch with _ | ⟨sig, real⟩ <;>
                simp [process_file, hself, hres, hre, hrm,
                  is_binary, read_header, hbr, hbin, List.countP_append,
                  List.countP_cons, is_read_event, htr]
            | false =>
              cases o with
              | none =>
                rcases hrm : res.mismatch with _ | ⟨sig, real⟩ <;>
                  simp [process_file, hself, hres, hre, hrm,
                    is_binary, read_header, hbr, hbin, hdec, hptr,
                    List.countP_append, List.countP_cons, is_read_event, htr]
              | some pp =>
                obtain ⟨⟨action, np⟩, bins⟩ := pp
                cases action <;>
                  rcases hrm : res.mismatch with _ | ⟨sig, real⟩ <;>
                    simp [process_file, hself, hres, hre, hrm,
                      is_binary, read_header, hbr, hbin, hdec, hptr,
                      move_reads, List.countP_append, List.countP_cons,
                      is_read_event, htr]
  refine ⟨?_, hresolve1, hisbin, ?_⟩
  · rcases main with ⟨h1, -⟩ | h2
    · exact Or.inl h1
    · exact Or.inr h2
  · intro res rest hr hne
    rcases main with ⟨-, hall⟩ | h2
    · exact absurd (hall res rest hr) hne
    · exact h2

theorem C9_two_reads_amended_witness :
    (process_file c9file ⟨false, true⟩ st0).2.countP is_read_event = 2 :=
  (C9_two_reads_amended c9file ⟨false, true⟩ st0 rfl rfl).2.2.2
    ⟨some "txt", none⟩ [] (by rfl) (by decide)

/-- Under dry-run, a successful header read always resolves successfully,
with the pending answers untouched, a single read event, and a present
resolved extension. -/
theorem resolve_dry_shape (f : FileInfo) (ans : List (Fin 4)) (buf : List Nat)
    (hb : f.readResult = .ok buf) :
    ∃ res : ResolveResult, resolve_extension f false true ans =
      (.ok (res, ans), [Event.readFile f.name]) ∧ res.ext ≠ none := by
  cases hd : detect_by_signature_buf buf with
  | none =>
    exact ⟨⟨some ((ext_from_path f).getD "unknown"), none⟩,
      resolve_no_sig f true ans buf hb hd, by simp⟩
  | some sig =>
    cases hx : ext_from_path f with
    | none =>
      exact ⟨⟨some sig, none⟩, resolve_sig_no_ext f true ans buf sig hb hd hx,
        by simp⟩
    | some actual =>
      by_cases hne : actual = sig
      · exact ⟨⟨some sig, none⟩,
          resolve_sig_agrees f true ans buf sig actual hb hd hx hne, by simp⟩
      · exact ⟨⟨some sig, some (sig, actual)⟩,
          resolve_conflict_dry f ans buf sig actual hb hd hx hne, by simp⟩

/-- Claim C2: a dry-run never prompts (no prompt event ever appears in the
trace) and never touches the policy state or either pending-answer queue;
a signature/extension conflict resolves to the detected type with the
(detected, declared) pair recorded; and a binary file gets a warning and
is skipped (never moved). -/
theorem C2_dry_run_isolated (f : FileInfo) (args : Args) (st : ProcState)
    (hdry : args.dry_run = true) :
    (process_file f args st).2.countP is_prompt_event = 0
    ∧ (∀ st', (process_file f args st).1 = .ok st' →
        st'.policy = st.policy ∧ st'.conflictAnswers = st.conflictAnswers
        ∧ st'.binaryAnswers = st.binaryAnswers)
    ∧ (∀ buf sig actual, args.ext_only = false → f.readResult = .ok buf →
        detect_by_signature_buf buf = some sig →
        ext_from_path f = some actual → actual ≠ sig →
        (resolve_extension f args.ext_only args.dry_run st.conflictAnswers).1 =
          .ok (⟨some sig, some (sig, actual)⟩, st.conflictAnswers))
    ∧ (∀ buf, args.ext_only = false → f.isSelf = false →
        f.readResult = .ok buf → is_binary_buf buf = true →
        ∃ st', (process_file f args st).1 = .ok st'
          ∧ f.name ∈ st'.skipped ∧ binary_warning f.name ∈ st'.warnings
          ∧ st'.moved = st.moved) := by
  obtain ⟨eo, dr⟩ := args
  change dr = true at hdry
  subst hdry
  have key : (∃ st' tr, process_file f ⟨eo, true⟩ st = (.ok st', tr)
      ∧ tr.countP is_prompt_event = 0
      ∧ st'.policy = st.policy ∧ st'.conflictAnswers = st.conflictAnswers
      ∧ st'.binaryAnswers = st.binaryAnswers)
      ∨ (∃ e, process_file f ⟨eo, true⟩ st =
          (.error e, [Event.readFile f.name])) := by
    cases hs : f.isSelf with
    | true =>
      left
      exact ⟨{st with skipped := st.skipped ++ [f.name]}, [],
        by simp [process_file, hs], rfl, rfl, rfl, rfl⟩
    | false =>
      cases eo with
      | true =>
        left
        refine ⟨{st with moved := st.moved ++ [(f.name,
            (Category.from_ext ((ext_from_path f).getD "unknown")).dir_name)]},
          [], ?_, rfl, rfl, rfl, rfl⟩
        simp [process_file, hs, resolve_ext_only, move_to_category]
      | false =>
        cases hb : f.readResult with
        | error e =>
          right
          exact ⟨e, by simp [process_file, hs,
            resolve_read_error f true st.conflictAnswers e hb]⟩
        | ok buf =>
          left
          obtain ⟨res, hres, hrne⟩ := resolve_dry_shape f st.conflictAnswers buf hb
          cases hre : res.ext with
          | none => exact absurd hre hrne
          | some ext =>
            rcases hrm : res.mismatch with _ | ⟨sig, real⟩ <;>
              cases hbin : is_binary_buf buf
            · refine ⟨{st with
                  moved := st.moved ++ [(f.name, (Category.from_ext ext).dir_name)]},
                [Event.readFile f.name, Event.readFile f.name], ?_, rfl, rfl, rfl, rfl⟩
              simp [process_file, hs, hres, hre, hrm, is_binary, read_header,
                hb, hbin, move_to_category]
            · refine ⟨{st with
                  warnings := st.warnings ++ [binary_warning f.name],
                  skipped := st.skipped ++ [f.name]},
                [Event.readFile f.name, Event.readFile f.name], ?_, rfl, rfl, rfl, rfl⟩
              simp [process_file, hs, hres, hre, hrm, is_binary, read_header,
                hb, hbin]
            · refine ⟨{st with
                  warnings := st.warnings ++ [mismatch_warning f.name sig real],
                  moved := st.moved ++ [(f.name, (Category.from_ext ext).dir_name)]},
                [Event.readFile f.name, Event.readFile f.name], ?_, rfl, rfl, rfl, rfl⟩
              simp [process_file, hs, hres, hre, hrm, is_binary, read_header,
                hb, hbin, move_to_category]
            · refine ⟨{st with
                  warnings := (st.warnings ++ [mismatch_warning f.name sig real])
                    ++ [binary_warning f.name],
                  skipped := st.skipped ++ [f.name]},
                [Event.readFile f.name, Event.readFile f.name], ?_, rfl, rfl, rfl, rfl⟩
              simp [process_file, hs, hres, hre, hrm, is_binary, read_header,
                hb, hbin]
  refine ⟨?_, ?_, ?_, ?_⟩
  · rcases key with ⟨st', tr, hpf, hcnt, -⟩ | ⟨e, hpf⟩
    · rw [hpf]; exact hcnt
    · rw [hpf]; simp [is_prompt_event]
  · intro st' h
    rcases key with ⟨st1, tr, hpf, -, hp, hc, hba⟩ | ⟨e, hpf⟩
    · rw [hpf] at h
      simp only [Except.ok.injEq] at h
      subst h
      exact ⟨hp, hc, hba⟩
    · rw [hpf] at h
      exact absurd h (by simp)
  · intro buf sig actual he hb hd hx hne
    change eo = false at he
    subst he
    rw [resolve_conflict_dry f st.conflictAnswers buf sig actual hb hd hx hne]
  · intro buf he hs hb hbin
    change eo = false at he
    subst he
    obtain ⟨res, hres, hrne⟩ := resolve_dry_shape f st.conflictAnswers buf hb
    cases hre : res.ext with
    | none => exact absurd hre hrne
    | some ext =>
      rcases hrm : res.mismatch with _ | ⟨sig, real⟩
      · refine ⟨{st with
            warnings := st.warnings ++ [binary_warning f.name],
            skipped := st.skipped ++ [f.name]}, ?_, by simp, by simp, rfl⟩
        have hpf : process_file f ⟨false, true⟩ st =
            (.ok {st with
              warnings := st.warnings ++ [binary_warning f.name],
              skipped := st.skipped ++ [f.name]},
              [Event.readFile f.name, Event.readFile f.name]) := by
          simp [process_file, hs, hres, hre, hrm, is_binary, read_header,
            hb, hbin]
        rw [hpf]
      · refine ⟨{st with
            warnings := (st.warnings ++ [mismatch_warning f.name sig real])
              ++ [binary_warning f.name],
            skipped := st.skipped ++ [f.name]}, ?_, by simp, by simp, rfl⟩
        have hpf : process_file f ⟨false, true⟩ st =
            (.ok {st with
              warnings := (st.warnings ++ [mismatch_warning f.name sig real])
                ++ [binary_warning f.name],
              skipped := st.skipped ++ [f.name]},
              [Event.readFile f.name, Event.readFile f.name]) := by
          simp [process_file, hs, hres, hre, hrm, is_binary, read_header,
            hb, hbin]
        rw [hpf]

def c2file : FileInfo := ⟨"app.txt", some "txt", .ok (strBytes "MZ\x90\x00"), false⟩

theorem C2_dry_run_isolated_witness :
    ∃ st', (process_file c2file ⟨false, true⟩ st0).1 = .ok st'
      ∧ "app.txt" ∈ st'.skipped ∧ binary_warning "app.txt" ∈ st'.warnings
      ∧ st'.moved = st0.moved :=
  (C2_dry_run_isolated c2file ⟨false, true⟩ st0 rfl).2.2.2
    (strBytes "MZ\x90\x00") rfl rfl rfl (by decide)

/-- Claim C10: `resolve_extension` reports a (detected, declared) pair
exactly for a real conflict — a signature matched, the lowercased declared
extension exists and differs — and only under dry-run or the
manual-verification choice (which also resolves to the reserved label
"mismatch"); extension-only runs never report; the skip / by-signature /
by-extension choices report nothing, and only skip leaves the resolved
extension absent. -/
theorem C10_mismatch_reporting (f : FileInfo) (dry : Bool) (ans : List (Fin 4)) :
    (∀ res rest sig actual,
      (resolve_extension f false dry ans).1 = .ok (res, rest) →
      res.mismatch = some (sig, actual) →
      ∃ buf, f.readResult = .ok buf ∧ detect_by_signature_buf buf = some sig
        ∧ ext_from_path f = some actual ∧ actual ≠ sig
        ∧ (dry = true ∨ (res.ext = some "mismatch"
            ∧ ∃ c rest0, ans = c :: rest0 ∧ c.val = 3)))
    ∧ (∀ res rest, (resolve_extension f true dry ans).1 = .ok (res, rest) →
        res.mismatch = none)
    ∧ (∀ buf sig actual, f.readResult = .ok buf →
        detect_by_signature_buf buf = some sig → ext_from_path f = some actual →
        actual ≠ sig →
        (resolve_extension f false true ans).1 =
          .ok (⟨some sig, some (sig, actual)⟩, ans))
    ∧ (∀ buf sig actual c rest0, ans = c :: rest0 → f.readResult = .ok buf →
        detect_by_signature_buf buf = some sig → ext_from_path f = some actual →
        actual ≠ sig →
        (resolve_extension f false false ans).1 =
          .ok (conflict_res sig actual c, rest0)
        ∧ (c.val = 0 → conflict_res sig actual c = ⟨none, none⟩)
        ∧ (c.val = 1 → conflict_res sig actual c = ⟨some sig, none⟩)
        ∧ (c.val = 2 → conflict_res sig actual c = ⟨some actual, none⟩)
        ∧ (c.val = 3 → conflict_res sig actual c =
            ⟨some "mismatch", some (sig, actual)⟩))
    ∧ (∀ res rest, (resolve_extension f false dry ans).1 = .ok (res, rest) →
        res.ext = none →
        dry = false ∧ ∃ buf sig actual c rest0, ans = c :: rest0 ∧ c.val = 0
          ∧ f.readResult = .ok buf ∧ detect_by_signature_buf buf = some sig
          ∧ ext_from_path f = some actual ∧ actual ≠ sig) := by
  refine ⟨?_, ?_, ?_, ?_, ?_⟩
  · intro res rest sig actual hok hm
    cases hb : f.readResult with
    | error e =>
      rw [resolve_read_error f dry ans e hb] at hok
      exact absurd hok (by simp)
    | ok buf =>
      cases hd : detect_by_signature_buf buf with
      | none =>
        rw [resolve_no_sig f dry ans buf hb hd] at hok
        simp only [Except.ok.injEq, Prod.mk.injEq] at hok
        rw [← hok.1] at hm
        exact absurd hm (by simp)
      | some sig' =>
        cases hx : ext_from_path f with
        | none =>
          rw [resolve_sig_no_ext f dry ans buf sig' hb hd hx] at hok
          simp only [Except.ok.injEq, Prod.mk.injEq] at hok
          rw [← hok.1] at hm
          exact absurd hm (by simp)
        | some actual' =>
          by_cases hne : actual' = sig'
          · rw [resolve_sig_agrees f dry ans buf sig' actual' hb hd hx hne] at hok
            simp only [Except.ok.injEq, Prod.mk.injEq] at hok
            rw [← hok.1] at hm
            exact absurd hm (by simp)
          · cases dry with
            | true =>
              rw [resolve_conflict_dry f ans buf sig' actual' hb hd hx hne] at hok
              simp only [Except.ok.injEq, Prod.mk.injEq] at hok
              rw [← hok.1] at hm
              simp only [Option.some.injEq, Prod.mk.injEq] at hm
              obtain ⟨h1, h2⟩ := hm
              subst h1; subst h2
              exact ⟨buf, rfl, hd, rfl, hne, Or.inl rfl⟩
            | false =>
              cases ans with
              | nil =>
                rw [resolve_conflict_no_answer f buf sig' actual' hb hd hx hne] at hok
                exact absurd hok (by simp)
              | cons c rest0 =>
                rw [resolve_conflict_live f c rest0 buf sig' actual' hb hd hx hne] at hok
                simp only [Except.ok.injEq, Prod.mk.injEq] at hok
                rw [← hok.1] at hm
                fin_cases c
                · exact absurd hm (by simp [conflict_res, ask_conflict_resolution])
                · exact absurd hm (by simp [conflict_res, ask_conflict_resolution])
                · exact absurd hm (by simp [conflict_res, ask_conflict_resolution])
                · simp only [conflict_res, ask_conflict_resolution] at hm
                  norm_num at hm
                  obtain ⟨h1, h2⟩ := hm
                  subst h1; subst h2
                  refine ⟨buf, rfl, hd, rfl, hne, Or.inr ⟨?_, ⟨3, by omega⟩, rest0, rfl, rfl⟩⟩
                  rw [← hok.1]
                  simp [conflict_res, ask_conflict_resolution]
  · intro res rest hok
    rw [resolve_ext_only f dry ans] at hok
    simp only [Except.ok.injEq, Prod.mk.injEq] at hok
    rw [← hok.1]
  · intro buf sig actual hb hd hx hne
    rw [resolve_conflict_dry f ans buf sig actual hb hd hx hne]
  · intro buf sig actual c rest0 hans hb hd hx hne
    subst hans
    refine ⟨by rw [resolve_conflict_live f c rest0 buf sig actual hb hd hx hne],
      ?_, ?_, ?_, ?_⟩ <;>
      intro hc <;> simp [conflict_res, ask_conflict_resolution, hc]
  · intro res rest hok hre
    cases hb : f.readResult with
    | error e =>
      rw [resolve_read_error f dry ans e hb] at hok
      exact absurd hok (by simp)
    | ok buf =>
      cases hd : detect_by_signature_buf buf with
      | none =>
        rw [resolve_no_sig f dry ans buf hb hd] at hok
        simp only [Except.ok.injEq, Prod.mk.injEq] at hok
        rw [← hok.1] at hre
        exact absurd hre (by simp)
      | some sig' =>
        cases hx : ext_from_path f with
        | none =>
          rw [resolve_sig_no_ext f dry ans buf sig' hb hd hx] at hok
          simp only [Except.ok.injEq, Prod.mk.injEq] at hok
          rw [← hok.1] at hre
          exact absurd hre (by simp)
        | some actual' =>
          by_cases hne : actual' = sig'
          · rw [resolve_sig_agrees f dry ans buf sig' actual' hb hd hx hne] at hok
            simp only [Except.ok.injEq, Prod.mk.injEq] at hok
            rw [← hok.1] at hre
            exact absurd hre (by simp)
          · cases dry with
            | true =>
              rw [resolve_conflict_dry f ans buf sig' actual' hb hd hx hne] at hok
              simp only [Except.ok.injEq, Prod.mk.injEq] at hok
              rw [← hok.1] at hre
              exact absurd hre (by simp)
            | false =>
              cases ans with
              | nil =>
                rw [resolve_conflict_no_answer f buf sig' actual' hb hd hx hne] at hok
                exact absurd hok (by simp)
              | cons c rest0 =>
                rw [resolve_conflict_live f c rest0 buf sig' actual' hb hd hx hne] at hok
                simp only [Except.ok.injEq, Prod.mk.injEq] at hok
                rw [← hok.1] at hre
                fin_cases c
                · exact ⟨rfl, buf, sig', actual', ⟨0, by omega⟩, rest0, rfl, rfl,
                    rfl, hd, rfl, hne⟩
                · exact absurd hre (by simp [conflict_res, ask_conflict_resolution])
                · exact absurd hre (by simp [conflict_res, ask_conflict_resolution])
                · exact absurd hre (by simp [conflict_res, ask_conflict_resolution])

def c10file : FileInfo := ⟨"report.png", some "png", .ok (strBytes "%PDF-1.4"), false⟩

theorem C10_mismatch_reporting_witness :
    (resolve_extension c10file false true []).1 =
      .ok (⟨some "pdf", some ("pdf", "png")⟩, []) :=
  (C10_mismatch_reporting c10file true []).2.2.1
    (strBytes "%PDF-1.4") "pdf" "png" (by rfl) (by decide) (by rfl) (by decide)

end Sortify
